import Mathlib

/-!
Verification of the libdevcrypto core: secp256k1 signature glue
(`dev::sign`, `dev::recover`, `dev::toPublic`, `SignatureStruct::isValid`,
`dev::toAddress`) and the password-encrypted secret store
(`SecretStore::{secret, importSecret, kill, clearCache, save, load,
encrypt, decrypt}`).

External collaborators (libsecp256k1, Keccak-256, PBKDF2, AES-128-CBC,
the JSON reader/writer) are modelled as parameters or, for the ECDSA
mathematics, as an abstract curve model in discrete-logarithm
coordinates; everything written in the repository itself is translated
directly from the C++.
-/

namespace Devcrypto

/-- The secp256k1 group order, the value of the source constant
`c_secp256k1n` (decimal string in `Common.cpp`). -/
def secp256k1n : Nat :=
  115792089237316195423570985008687907852837564279074904382605163141518161494337

/-- The bound `s_max` used by `SignatureStruct::isValid`:
`0xfffffffffffffffffffffffffffffffebaaedce6af48a03bbfd25e8cd0364141`. -/
def sMax : Nat :=
  0xfffffffffffffffffffffffffffffffebaaedce6af48a03bbfd25e8cd0364141

/-- The order-like constant written in the specification text:
`0xffffffffffffffffffffffffffffffffbaaedce6af48a03bbfd25e8cd0364141`
(note the `ff` where the curve order has `fe`). -/
def specClaimN : Nat :=
  0xffffffffffffffffffffffffffffffffbaaedce6af48a03bbfd25e8cd0364141

/-- A 65-byte signature viewed as the `(r, s, v)` triple, the
`SignatureStruct` view of `Common.h`; `r` and `s` are the big-endian
values of the two `h256` halves, `v` the final byte. -/
structure SignatureStruct where
  r : Nat
  s : Nat
  v : Nat
deriving DecidableEq, Repr

/-- Translation of `dev::SignatureStruct::isValid` from `Common.cpp`:
`v <= 1 && r > 0 && s > 0 && r < s_max && s < s_max`. -/
def SignatureStruct.isValid (sig : SignatureStruct) : Bool :=
  decide (sig.v ≤ 1) && decide (0 < sig.r) && decide (0 < sig.s) &&
    decide (sig.r < sMax) && decide (sig.s < sMax)

/-- A raw recoverable signature as returned by the external primitive
`secp256k1_ecdsa_sign_recoverable` after compact serialization:
`r` and `s` are reduced scalars (`< n`), `v` the recovery id. -/
structure RawSig where
  r : Nat
  s : Nat
  v : Nat
deriving DecidableEq, Repr

/-- The post-processing applied by `dev::sign` (`Common.cpp`) to the raw
signature: `if (ss.s > c_secp256k1n / 2) { ss.v ^= 1; ss.s = c_secp256k1n - ss.s; }`. -/
def normalizeSig (raw : RawSig) : SignatureStruct :=
  if secp256k1n / 2 < raw.s then
    { r := raw.r, s := secp256k1n - raw.s, v := raw.v ^^^ 1 }
  else
    { r := raw.r, s := raw.s, v := raw.v }

theorem secp256k1n_odd : secp256k1n / 2 + secp256k1n / 2 + 1 = secp256k1n := by
  decide

theorem sMax_eq_order : sMax = secp256k1n := by decide

/-- C1: for every raw recoverable signature produced by the underlying
primitive (so `s < n` and recovery id `v ∈ {0, 1}`), `dev::sign`'s
normalization replaces `s` by `n - s` and `v` by `v XOR 1` exactly when
`s > n/2`, and the returned signature always satisfies `s ≤ n/2` and
`v ≤ 1`. -/
theorem sign_lowS_normalization (raw : RawSig)
    (hs : raw.s < secp256k1n) (hv : raw.v ≤ 1) :
    (secp256k1n / 2 < raw.s →
      normalizeSig raw = ⟨raw.r, secp256k1n - raw.s, raw.v ^^^ 1⟩) ∧
    (raw.s ≤ secp256k1n / 2 →
      normalizeSig raw = ⟨raw.r, raw.s, raw.v⟩) ∧
    (normalizeSig raw).s ≤ secp256k1n / 2 ∧
    (normalizeSig raw).v ≤ 1 := by
  have hodd := secp256k1n_odd
  unfold normalizeSig
  rcases Nat.lt_or_ge (secp256k1n / 2) raw.s with hgt | hle
  · rw [if_pos hgt]
    refine ⟨fun _ => rfl, fun hle' => absurd hgt (Nat.not_lt.mpr hle'), ?_, ?_⟩
    · simp only
      omega
    · simp only
      interval_cases hraw : raw.v <;> decide
  · rw [if_neg (Nat.not_lt.mpr hle)]
    exact ⟨fun hgt' => absurd hgt' (Nat.not_lt.mpr hle), fun _ => rfl, hle, hv⟩

/-- Witness for `sign_lowS_normalization` at a concrete high-S raw
signature. -/
theorem sign_lowS_normalization_witness :
    (secp256k1n / 2 < (⟨7, secp256k1n - 3, 1⟩ : RawSig).s →
      normalizeSig ⟨7, secp256k1n - 3, 1⟩ = ⟨7, secp256k1n - (secp256k1n - 3), 1 ^^^ 1⟩) ∧
    ((⟨7, secp256k1n - 3, 1⟩ : RawSig).s ≤ secp256k1n / 2 →
      normalizeSig ⟨7, secp256k1n - 3, 1⟩ = ⟨7, secp256k1n - 3, 1⟩) ∧
    (normalizeSig ⟨7, secp256k1n - 3, 1⟩).s ≤ secp256k1n / 2 ∧
    (normalizeSig ⟨7, secp256k1n - 3, 1⟩).v ≤ 1 :=
  sign_lowS_normalization ⟨7, secp256k1n - 3, 1⟩ (by decide) (by decide)

/-- C7 counterexample: the signature with `r` equal to the code's
`s_max` (the true curve order, `...fe baaedce6...`), `s = 1`, `v = 0`
is rejected by `SignatureStruct::isValid`, yet it satisfies the claim's
predicate stated with the constant `...ff baaedce6...`. -/
theorem isValid_spec_constant_counterexample :
    SignatureStruct.isValid ⟨sMax, 1, 0⟩ = false ∧
    ((⟨sMax, 1, 0⟩ : SignatureStruct).v ≤ 1 ∧
      0 < (⟨sMax, 1, 0⟩ : SignatureStruct).r ∧
      (⟨sMax, 1, 0⟩ : SignatureStruct).r < specClaimN ∧
      0 < (⟨sMax, 1, 0⟩ : SignatureStruct).s ∧
      (⟨sMax, 1, 0⟩ : SignatureStruct).s < specClaimN) := by
  constructor
  · decide
  · refine ⟨by decide, by decide, by decide, by decide, by decide⟩

/-- C7 (amended): `isValid` returns true iff `v ≤ 1`, `0 < r < n` and
`0 < s < n`, where `n` is the secp256k1 group order
`0xfffffffffffffffffffffffffffffffebaaedce6af48a03bbfd25e8cd0364141`
(decimal 115792089237316195423570985008687907852837564279074904382605163141518161494337). -/
theorem isValid_iff (sig : SignatureStruct) :
    sig.isValid = true ↔
      (sig.v ≤ 1 ∧ 0 < sig.r ∧ sig.r < secp256k1n ∧
        0 < sig.s ∧ sig.s < secp256k1n) := by
  unfold SignatureStruct.isValid
  rw [sMax_eq_order]
  simp only [Bool.and_eq_true, decide_eq_true_eq]
  tauto

/-! ### Address derivation (`dev::toAddress`, `dev::toPublic`) -/

/-- Translation of `right160` of `FixedHash.h`: the rightmost 20 bytes of a 32-byte
hash. -/
def right160 (l : List Nat) : List Nat := l.drop (l.length - 20)

/-- Translation of `dev::toPublic(Secret)` from `Common.cpp`: `secp256k1_ec_pubkey_create`
fails exactly when the secret is zero or at least the group order, and the
function then returns the default `Public{}`, i.e. 64 zero bytes; otherwise
the uncompressed serialization of the point with the `0x04` header
stripped.  The external point serialization is the parameter
`serializePoint`. -/
def toPublic (serializePoint : Nat → List Nat) (secret : Nat) : List Nat :=
  if 0 < secret ∧ secret < secp256k1n then serializePoint secret
  else List.replicate 64 0

/-- Translation of `dev::toAddress(Secret)` from `Common.cpp`:
`toAddress(toPublic(_secret))` where `toAddress(Public)` is
`right160(sha3(_public.ref()))`; `keccak256` is the external `sha3`. -/
def toAddress (keccak256 : List Nat → List Nat) (serializePoint : Nat → List Nat)
    (secret : Nat) : List Nat :=
  right160 (keccak256 (toPublic serializePoint secret))

/-- C10: for every invalid secret (zero or at least the group order),
`toPublic` yields the all-zero 64-byte `Public` and `toAddress` returns
the rightmost 20 bytes of the keccak-256 of those 64 zero bytes — the
same fixed address for every invalid secret, with no failure path. -/
theorem toAddress_invalid_secret (keccak256 : List Nat → List Nat)
    (serializePoint : Nat → List Nat) (secret : Nat)
    (h : secret = 0 ∨ secp256k1n ≤ secret) :
    toPublic serializePoint secret = List.replicate 64 0 ∧
    toAddress keccak256 serializePoint secret =
      right160 (keccak256 (List.replicate 64 0)) := by
  have hcond : ¬(0 < secret ∧ secret < secp256k1n) := by
    rcases h with h0 | hge
    · exact fun hc => by omega
    · exact fun hc => by omega
  constructor
  · unfold toPublic
    rw [if_neg hcond]
  · unfold toAddress toPublic
    rw [if_neg hcond]

/-- Witness for `toAddress_invalid_secret` at `secret = 0` with a
concrete keccak stand-in. -/
theorem toAddress_invalid_secret_witness :
    toPublic (fun _ => []) 0 = List.replicate 64 0 ∧
    toAddress (fun l => l.take 32) (fun _ => []) 0 =
      right160 ((List.replicate 64 0).take 32) :=
  toAddress_invalid_secret (fun l => l.take 32) (fun _ => []) 0 (Or.inl rfl)

/-! ### Recoverable ECDSA (`dev::sign` / `dev::recover` round trip)

The elliptic-curve arithmetic lives in the external libsecp256k1.  The
curve group is cyclic of prime order `n`, so we model points by their
discrete logarithm with respect to the base point: the point `m • G` is
represented by `m : ZMod n`.  The only facts about the point
serialization the round trip needs are collected in `CurveModel`:
an x-coordinate map, a y-parity bit, and the compact-parse inverse
`fromX` used by `secp256k1_ecdsa_recoverable_signature_parse_compact` /
`secp256k1_ecdsa_recover` — negating a point keeps its x-coordinate and
flips its parity. -/

/-- Abstract model of the secp256k1 point serialization in
discrete-logarithm coordinates. -/
structure CurveModel (n : ℕ) where
  xcoord : ZMod n → ZMod n
  isOdd : ZMod n → Bool
  fromX : ZMod n → Bool → ZMod n
  fromX_xcoord : ∀ m, fromX (xcoord m) (isOdd m) = m
  xcoord_neg : ∀ m, xcoord (-m) = xcoord m
  isOdd_neg : ∀ m, m ≠ 0 → isOdd (-m) = !isOdd m

/-- A recoverable signature over the model: scalars `r`, `s` and the
recovery id `v`. -/
structure RecSig (n : ℕ) where
  r : ZMod n
  s : ZMod n
  v : ℕ
deriving DecidableEq

/-- Model of `secp256k1_ecdsa_sign_recoverable` followed by
`..._serialize_compact`: standard recoverable ECDSA with nonce `k`
(RFC 6979 makes `k` a function of the inputs; the algebra holds for any
nonzero `k`).  `R = k • G`, `r = x(R)`, `s = k⁻¹ (z + r d)`, and the
recovery id is the parity of `R`. -/
def ecdsaSignRaw (n : ℕ) (C : CurveModel n) (d k z : ZMod n) : RecSig n :=
  { r := C.xcoord k
    s := k⁻¹ * (z + C.xcoord k * d)
    v := if C.isOdd k then 1 else 0 }

/-- Translation of `dev::sign` over the model: the raw signature of the primitive with
the source's low-S post-processing (`s > n/2 ⟹ s ← n − s, v ← v ^ 1`;
`n − s` is `-s` in `ZMod n`). -/
def devSign (n : ℕ) (C : CurveModel n) (d k z : ZMod n) : RecSig n :=
  let raw := ecdsaSignRaw n C d k z
  if n / 2 < raw.s.val then { r := raw.r, s := -raw.s, v := raw.v ^^^ 1 }
  else raw

/-- Translation of `dev::recover` over the model: fail when `v > 3` (the explicit check
in `Common.cpp`), otherwise reconstruct `R` from `(r, parity bit of v)`
and return `r⁻¹ • (s • R − z • G)`, the public key
`secp256k1_ecdsa_recover` computes. -/
def devRecover (n : ℕ) (C : CurveModel n) (sig : RecSig n) (z : ZMod n) :
    Option (ZMod n) :=
  if 3 < sig.v then none
  else some (sig.r⁻¹ * (sig.s * C.fromX sig.r (sig.v % 2 == 1) - z))

/-- Translation of `dev::toPublic(Secret)` over the model: the public point `d • G`,
i.e. `d` in discrete-logarithm coordinates (both `recover` and
`toPublic` serialize it with the same uncompressed-minus-header code). -/
def toPublicPoint (n : ℕ) (d : ZMod n) : ZMod n := d

/-- C2: for every secret `d` in `(0, n)` and message `z`,
`recover(sign(d, z), z)` returns `toPublic(d)`.  The nonce `k` is the
one chosen by the primitive (RFC 6979), any nonzero value with the usual
ECDSA side conditions `r ≠ 0`, `z + r·d ≠ 0`; both the low-S branch and
the untouched branch of `dev::sign` recover correctly. -/
theorem recover_sign_roundtrip (n : ℕ) [Fact (Nat.Prime n)] (C : CurveModel n)
    (d k z : ZMod n) (_hd : d ≠ 0) (hk : k ≠ 0)
    (hr : C.xcoord k ≠ 0) (_hs : z + C.xcoord k * d ≠ 0) :
    devRecover n C (devSign n C d k z) z = some (toPublicPoint n d) := by
  have hvle : ∀ b : Bool, ¬ (3 < (if b then 1 else 0 : ℕ)) := by decide
  have hvle2 : ∀ b : Bool, ¬ (3 < ((if b then 1 else 0 : ℕ) ^^^ 1)) := by decide
  have hparity : ∀ b : Bool, ((if b then 1 else 0 : ℕ) % 2 == 1) = b := by decide
  have hparity2 : ∀ b : Bool, (((if b then 1 else 0 : ℕ) ^^^ 1) % 2 == 1) = !b := by
    decide
  have hfromx : C.fromX (C.xcoord k) (C.isOdd k) = k := C.fromX_xcoord k
  have hfromxneg : C.fromX (C.xcoord k) (!C.isOdd k) = -k := by
    have h1 := C.fromX_xcoord (-k)
    rwa [C.xcoord_neg, C.isOdd_neg k hk] at h1
  simp only [devSign, ecdsaSignRaw, toPublicPoint]
  by_cases hcase : n / 2 < (k⁻¹ * (z + C.xcoord k * d)).val
  · rw [if_pos hcase]
    simp only [devRecover]
    rw [if_neg (hvle2 (C.isOdd k))]
    rw [hparity2 (C.isOdd k), hfromxneg]
    congr 1
    field_simp
    ring
  · rw [if_neg hcase]
    simp only [devRecover]
    rw [if_neg (hvle (C.isOdd k))]
    rw [hparity (C.isOdd k), hfromx]
    congr 1
    field_simp

/-- A concrete instance of `CurveModel` over the prime 5, used to
witness the round trip: representatives `1, 2` are the "even" points,
`3 = -2` and `4 = -1` their negations. -/
def xcoord5 : ZMod 5 → ZMod 5 := fun m => if m.val ≤ 2 then m else -m

/-- Parity map of the concrete model over `ZMod 5`. -/
def isOdd5 : ZMod 5 → Bool := fun m => 2 < m.val

/-- Point-from-x map of the concrete model over `ZMod 5`. -/
def fromX5 : ZMod 5 → Bool → ZMod 5 := fun x b => if b then -x else x

/-- The concrete curve model over `ZMod 5`. -/
def curveModel5 : CurveModel 5 :=
  { xcoord := xcoord5
    isOdd := isOdd5
    fromX := fromX5
    fromX_xcoord := by decide
    xcoord_neg := by decide
    isOdd_neg := by decide }

/-- Witness for `recover_sign_roundtrip` at the concrete model over
`ZMod 5` with `d = 2`, `k = 1`, `z = 1`. -/
theorem recover_sign_roundtrip_witness :
    devRecover 5 curveModel5 (devSign 5 curveModel5 2 1 1) 1 =
      some (toPublicPoint 5 2) :=
  @recover_sign_roundtrip 5 ⟨by norm_num⟩ curveModel5 2 1 1
    (by decide) (by decide) (by decide) (by decide)

/-! ### Keystore codec (`SecretStore::encrypt` / `SecretStore::decrypt`)

The JSON reader/writer of json_spirit is an external inverse pair, so the
encrypted JSON text is modelled at the value level by `KeystoreJson`
(hex encoding of byte fields included in that bijection).  The
cryptographic primitives PBKDF2-HMAC-SHA256, Keccak-256 and AES-128-CBC
are external and appear as the fields of `CryptoPrims`. -/

/-- External cryptographic primitives used by the keystore codec. -/
structure CryptoPrims where
  pbkdf2 : String → List Nat → Nat → Nat → List Nat
  keccak256 : List Nat → List Nat
  aesEncrypt : List Nat → List Nat → List Nat → List Nat
  aesDecrypt : List Nat → List Nat → List Nat → List Nat

/-- The JSON object written by `SecretStore::encrypt` and read back by
`SecretStore::decrypt`, at the value level. -/
structure KeystoreJson where
  kdf : String
  prf : String
  c : Nat
  salt : List Nat
  dklen : Nat
  cipher : String
  iv : List Nat
  ciphertext : List Nat
  mac : List Nat

/-- Translation of `h128(_, AlignRight)` of `FixedHash.h`: the last `min(16, len)`
bytes of the input, zero-padded on the left to 16 bytes. -/
def alignRight16 (b : List Nat) : List Nat :=
  List.replicate (16 - (b.drop (b.length - 16)).length) 0 ++ b.drop (b.length - 16)

/-- The AES key derivation shared by `encrypt` and `decrypt`
(`SecretStore.cpp`): `h128 key(sha3(h128(derivedKey, AlignRight)), AlignRight)`. -/
def aesKeyOf (P : CryptoPrims) (derivedKey : List Nat) : List Nat :=
  alignRight16 (P.keccak256 (alignRight16 derivedKey))

/-- The MAC expression appearing identically in `SecretStore::encrypt`
(line 162) and `SecretStore::decrypt` (line 201):
`sha3(bytesConstRef(&derivedKey).cropped(derivedKey.size() - 16).toBytes() + cipherText)`,
i.e. keccak-256 of the last 16 bytes of the derived key followed by the
ciphertext. -/
def keystoreMac (P : CryptoPrims) (derivedKey cipherText : List Nat) : List Nat :=
  P.keccak256 (derivedKey.drop (derivedKey.length - 16) ++ cipherText)

/-- Translation of `SecretStore::encrypt` from `SecretStore.cpp`, with the random
`salt` and `iv` made explicit inputs. -/
def SecretStore.encrypt (P : CryptoPrims) (v : List Nat) (pass : String)
    (salt iv : List Nat) : KeystoreJson :=
  let dklen := 16
  let iterations := 262144
  let derivedKey := P.pbkdf2 pass salt iterations dklen
  let cipherText := P.aesEncrypt (aesKeyOf P derivedKey) iv v
  { kdf := "pbkdf2"
    prf := "hmac-sha256"
    c := iterations
    salt := salt
    dklen := dklen
    cipher := "aes-128-cbc"
    iv := iv
    ciphertext := cipherText
    mac := keystoreMac P derivedKey cipherText }

/-- The expected MAC recomputed by `SecretStore::decrypt` from the
stored kdf parameters: `derivedKey = pbkdf2(pass, salt, c, dklen)`, then
the shared MAC expression. -/
def decryptMacExp (P : CryptoPrims) (o : KeystoreJson) (pass : String) : List Nat :=
  keystoreMac P (P.pbkdf2 pass o.salt o.c o.dklen) o.ciphertext

/-- Translation of `SecretStore::decrypt` from `SecretStore.cpp`: reject unknown kdf or
prf, re-derive the key, check the MAC before anything else touches the
ciphertext, then AES-decrypt only for the known cipher; every failure
returns the empty byte sequence (`bytes()`). -/
def SecretStore.decrypt (P : CryptoPrims) (o : KeystoreJson) (pass : String) :
    List Nat :=
  if o.kdf = "pbkdf2" then
    if o.prf ≠ "hmac-sha256" then []
    else
      let derivedKey := P.pbkdf2 pass o.salt o.c o.dklen
      if o.mac ≠ keystoreMac P derivedKey o.ciphertext then []
      else if o.cipher = "aes-128-cbc" then
        P.aesDecrypt (aesKeyOf P derivedKey) o.iv o.ciphertext
      else []
  else []

/-- C3: the MAC emitted by `encrypt` is keccak-256 of the last 16 bytes
of the derived key concatenated with the ciphertext (the last-16-bytes
convention, not the second half of a 32-byte key), and it equals the MAC
`decrypt` recomputes from the stored parameters under the same
passphrase, so the decryption of an encryption reaches the AES stage. -/
theorem keystore_mac_agreement (P : CryptoPrims) (v : List Nat) (pass : String)
    (salt iv : List Nat) :
    (SecretStore.encrypt P v pass salt iv).mac =
      P.keccak256 ((P.pbkdf2 pass salt 262144 16).drop
          ((P.pbkdf2 pass salt 262144 16).length - 16) ++
        (SecretStore.encrypt P v pass salt iv).ciphertext) ∧
    (SecretStore.encrypt P v pass salt iv).mac =
      decryptMacExp P (SecretStore.encrypt P v pass salt iv) pass ∧
    SecretStore.decrypt P (SecretStore.encrypt P v pass salt iv) pass =
      P.aesDecrypt (aesKeyOf P (P.pbkdf2 pass salt 262144 16)) iv
        (SecretStore.encrypt P v pass salt iv).ciphertext := by
  refine ⟨rfl, rfl, ?_⟩
  simp [SecretStore.decrypt, SecretStore.encrypt, decryptMacExp]

/-- C4: whenever the stored `mac` differs from the MAC recomputed from
the stored parameters, `decrypt` returns the empty byte sequence, and it
does so for every choice of the AES primitives — the AES decryption is
never consulted, so no partial plaintext can escape. -/
theorem decrypt_mac_mismatch (P Q : CryptoPrims) (o : KeystoreJson) (pass : String)
    (hkdf : Q.pbkdf2 = P.pbkdf2) (hkec : Q.keccak256 = P.keccak256)
    (hmac : o.mac ≠ decryptMacExp P o pass) :
    SecretStore.decrypt P o pass = [] ∧ SecretStore.decrypt Q o pass = [] := by
  have hmacQ : o.mac ≠ decryptMacExp Q o pass := by
    rwa [decryptMacExp, keystoreMac, hkdf, hkec]
  rw [decryptMacExp] at hmac hmacQ
  constructor
  · unfold SecretStore.decrypt
    by_cases h1 : o.kdf = "pbkdf2"
    · rw [if_pos h1]
      by_cases h2 : o.prf ≠ "hmac-sha256"
      · rw [if_pos h2]
      · rw [if_neg h2]
        simp only
        rw [if_pos hmac]
    · rw [if_neg h1]
  · unfold SecretStore.decrypt
    by_cases h1 : o.kdf = "pbkdf2"
    · rw [if_pos h1]
      by_cases h2 : o.prf ≠ "hmac-sha256"
      · rw [if_pos h2]
      · rw [if_neg h2]
        simp only
        rw [if_pos hmacQ]
    · rw [if_neg h1]

/-- Concrete trivial primitives used to witness codec theorems. -/
def trivialPrims : CryptoPrims :=
  { pbkdf2 := fun _ _ _ _ => List.replicate 16 0
    keccak256 := fun _ => List.replicate 32 0
    aesEncrypt := fun _ _ v => v
    aesDecrypt := fun _ _ v => v }

/-- A keystore JSON value whose stored mac cannot match the recomputed
one under `trivialPrims`. -/
def mismatchJson : KeystoreJson :=
  { kdf := "pbkdf2"
    prf := "hmac-sha256"
    c := 1
    salt := []
    dklen := 16
    cipher := "aes-128-cbc"
    iv := []
    ciphertext := [1, 2]
    mac := [9] }

/-- Witness for `decrypt_mac_mismatch` at `trivialPrims` and
`mismatchJson`. -/
theorem decrypt_mac_mismatch_witness :
    SecretStore.decrypt trivialPrims mismatchJson "p" = [] ∧
    SecretStore.decrypt trivialPrims mismatchJson "p" = [] :=
  decrypt_mac_mismatch trivialPrims trivialPrims mismatchJson "p" rfl rfl
    (by decide)

/-! ### SecretStore state (`SecretStore.cpp`)

`m_keys : std::map<h128, std::pair<std::string, std::string>>` maps a
UUID to `(encryptedJson, backingPath)` and `m_cached : std::map<h128,
bytes>` holds decrypted secrets.  UUIDs are modelled by their canonical
text form, maps by association lists looked up with `alookup`
(insert-or-assign is modelled by prepending, which has the same lookup
semantics as `std::map::operator[]` assignment). -/

/-- Lookup in the `std::map` model over an association list. -/
def alookup {α : Type} (u : String) : List (String × α) → Option α
  | [] => none
  | (k, v) :: t => if k = u then some v else alookup u t

/-- Erasure in the `std::map` model over an association list. -/
def aeraseAll {α : Type} (u : String) : List (String × α) → List (String × α)
  | [] => []
  | (k, v) :: t => if k = u then aeraseAll u t else (k, v) :: aeraseAll u t

/-- A store entry: `(uuid, (encryptedJson, backingPath))`. -/
abbrev StoreEntry := String × String × String

/-- The two maps of `SecretStore`. -/
structure StoreState where
  keys : List StoreEntry
  cache : List (String × List Nat)

/-- Minimal JSON value mirroring json_spirit's `mValue` as far as the
store uses it. -/
inductive JsonValue where
  | jstr : String → JsonValue
  | jint : Int → JsonValue
  | jobj : List (String × JsonValue) → JsonValue

/-- The JSON object `SecretStore::save` builds for one entry
(`SecretStore.cpp` lines 91-96): `v["crypto"] = crypto; v["id"] = uuid;
v["version"] = 2;` (`js::mObject` keeps keys sorted, so the emitted
order is crypto, id, version). -/
def saveEntryObj (crypto : JsonValue) (uuid : String) : List (String × JsonValue) :=
  [("crypto", crypto), ("id", JsonValue.jstr uuid), ("version", JsonValue.jint 2)]

/-- The file name `SecretStore::save` writes: `(p / uuid).string() + ".json"`. -/
def saveEntryFile (keysPath uuid : String) : String :=
  keysPath ++ "/" ++ uuid ++ ".json"

/-- The files written by `SecretStore::save`: one per entry of `m_keys`,
containing the `saveEntryObj` object; `parse` is the external
`js::read_string` applied to the stored encrypted JSON text. -/
def SecretStore.saveFiles (parse : String → JsonValue) (keysPath : String)
    (keys : List StoreEntry) : List (String × List (String × JsonValue)) :=
  keys.map (fun e => (saveEntryFile keysPath e.1, saveEntryObj (parse e.2.1) e.1))

/-- Effect of `SecretStore::save` on the store state: every entry's
`backingPath` becomes its file name, `m_cached` is untouched. -/
def SecretStore.saveOp (path : String → String) (st : StoreState) : StoreState :=
  ⟨st.keys.map (fun e => (e.1, e.2.1, path e.1)), st.cache⟩

/-- One keystore file as `SecretStore::load` sees it after JSON parsing:
`versionCap` is `stoi(o["Version"].get_str())` when the capitalized key
is present, `versionLow` is `o["version"].get_int()` when the lowercase
key is present. -/
structure KeyFileObj where
  versionCap : Option Int
  versionLow : Option Int
  id : String
  crypto : String
deriving DecidableEq

/-- The version computed by `SecretStore::load` (line 117):
`o.count("Version") ? stoi(o["Version"].get_str()) : o.count("version")
? o["version"].get_int() : 0`. -/
def loadVersion (o : KeyFileObj) : Int :=
  match o.versionCap with
  | some v => v
  | none =>
    match o.versionLow with
    | some v => v
    | none => 0

/-- The acceptance test of `SecretStore::load` (line 118):
`if (version == 2)`. -/
def loadAccepts (o : KeyFileObj) : Bool := loadVersion o == 2

/-- Treatment by `SecretStore::load` of one parsed file: insert
`(id, (crypto, path))` into `m_keys` when accepted, otherwise warn and
skip. -/
def SecretStore.loadStep (keys : List StoreEntry) (entry : KeyFileObj × String) :
    List StoreEntry :=
  if loadAccepts entry.1 then (entry.1.id, entry.1.crypto, entry.2) :: keys
  else keys

/-- Effect of `SecretStore::load` on the store state over the parsed
directory entries: only `m_keys` grows, `m_cached` is untouched. -/
def SecretStore.loadOp (entries : List (KeyFileObj × String)) (st : StoreState) :
    StoreState :=
  ⟨entries.foldl SecretStore.loadStep st.keys, st.cache⟩

/-- C5 counterexample: a well-formed keystore object carrying lowercase
`version` equal to 3 — accepted by the claim — is skipped by
`SecretStore::load`, which only accepts version 2. -/
theorem load_version_three_counterexample :
    loadVersion ⟨none, some 3, "i", "c"⟩ = 3 ∧
    loadAccepts ⟨none, some 3, "i", "c"⟩ = false ∧
    SecretStore.loadStep [] (⟨none, some 3, "i", "c"⟩, "p") = [] := by
  refine ⟨rfl, rfl, rfl⟩

/-- C5 (amended): a well-formed keystore object is inserted into `keys`
exactly when its version value equals 2 — never 3 — whether the version
comes from the capitalized `Version` key (string, via `stoi`) or, in its
absence, the lowercase `version` key (int); other versions are skipped,
never fatal. -/
theorem load_accepts_iff (o : KeyFileObj) (path : String)
    (keys : List StoreEntry) :
    (loadAccepts o = true ↔ loadVersion o = 2) ∧
    (loadAccepts o = true →
      SecretStore.loadStep keys (o, path) = (o.id, o.crypto, path) :: keys) ∧
    (loadAccepts o = false → SecretStore.loadStep keys (o, path) = keys) ∧
    (∀ v, o.versionCap = some v → loadVersion o = v) ∧
    (o.versionCap = none → ∀ v, o.versionLow = some v → loadVersion o = v) := by
  refine ⟨?_, ?_, ?_, ?_, ?_⟩
  · unfold loadAccepts
    exact beq_iff_eq
  · intro h
    unfold SecretStore.loadStep
    rw [if_pos h]
  · intro h
    unfold SecretStore.loadStep
    rw [if_neg (by rw [h]; exact Bool.false_ne_true)]
  · intro v hv
    unfold loadVersion
    rw [hv]
  · intro hcap v hlow
    unfold loadVersion
    rw [hcap, hlow]

/-- Witness for `load_accepts_iff` at a concrete capitalized-`Version`
object carrying version 2. -/
theorem load_accepts_iff_witness :
    (loadAccepts ⟨some 2, none, "i", "c"⟩ = true ↔
      loadVersion ⟨some 2, none, "i", "c"⟩ = 2) ∧
    (loadAccepts ⟨some 2, none, "i", "c"⟩ = true →
      SecretStore.loadStep [] (⟨some 2, none, "i", "c"⟩, "p") =
        [("i", "c", "p")]) ∧
    (loadAccepts ⟨some 2, none, "i", "c"⟩ = false →
      SecretStore.loadStep [] (⟨some 2, none, "i", "c"⟩, "p") = []) ∧
    (∀ v, (⟨some 2, none, "i", "c"⟩ : KeyFileObj).versionCap = some v →
      loadVersion ⟨some 2, none, "i", "c"⟩ = v) ∧
    ((⟨some 2, none, "i", "c"⟩ : KeyFileObj).versionCap = none →
      ∀ v, (⟨some 2, none, "i", "c"⟩ : KeyFileObj).versionLow = some v →
        loadVersion ⟨some 2, none, "i", "c"⟩ = v) :=
  load_accepts_iff ⟨some 2, none, "i", "c"⟩ "p" []

/-- C6 counterexample: the object `SecretStore::save` writes stores the
integer 2 — not 3 — under the lowercase `"version"` key. -/
theorem save_version_counterexample :
    alookup "version" (saveEntryObj (JsonValue.jobj []) "u") =
      some (JsonValue.jint 2) ∧
    JsonValue.jint 2 ≠ JsonValue.jint 3 := by
  constructor
  · rfl
  · intro h
    injection h with h'
    exact absurd h' (by decide)

/-- C6 (amended): for every entry of the store, `save` writes to
`<keysPath>/<uuid>.json` a JSON object whose `"version"` field is the
integer 2 (lowercase key), alongside the `"crypto"` and `"id"` fields. -/
theorem save_writes_version_two (parse : String → JsonValue) (keysPath : String)
    (keys : List StoreEntry) (e : StoreEntry) (he : e ∈ keys) :
    (saveEntryFile keysPath e.1, saveEntryObj (parse e.2.1) e.1) ∈
      SecretStore.saveFiles parse keysPath keys ∧
    alookup "version" (saveEntryObj (parse e.2.1) e.1) =
      some (JsonValue.jint 2) ∧
    alookup "id" (saveEntryObj (parse e.2.1) e.1) =
      some (JsonValue.jstr e.1) ∧
    alookup "crypto" (saveEntryObj (parse e.2.1) e.1) = some (parse e.2.1) := by
  refine ⟨?_, rfl, rfl, rfl⟩
  exact List.mem_map_of_mem _ he

/-- Witness for `save_writes_version_two` at a one-entry store. -/
theorem save_writes_version_two_witness :
    (saveEntryFile "d" "u", saveEntryObj (JsonValue.jobj []) "u") ∈
      SecretStore.saveFiles (fun _ => JsonValue.jobj []) "d" [("u", "e", "")] ∧
    alookup "version" (saveEntryObj (JsonValue.jobj []) "u") =
      some (JsonValue.jint 2) ∧
    alookup "id" (saveEntryObj (JsonValue.jobj []) "u") =
      some (JsonValue.jstr "u") ∧
    alookup "crypto" (saveEntryObj (JsonValue.jobj []) "u") =
      some (JsonValue.jobj []) :=
  save_writes_version_two (fun _ => JsonValue.jobj []) "d" [("u", "e", "")]
    ("u", "e", "") (List.mem_singleton.mpr rfl)

/-- Translation of `SecretStore::secret` from `SecretStore.cpp`: return from the cache
when present; else look up `m_keys`, returning empty when absent; else
call the passphrase provider once, decrypt, cache the result only when
non-empty, and return it.  The result is the returned bytes, the new
state, and the number of provider invocations. -/
def SecretStore.secretOp (dec : String → String → List Nat) (st : StoreState)
    (uuid : String) (pass : Unit → String) : List Nat × StoreState × Nat :=
  match alookup uuid st.cache with
  | some v => (v, st, 0)
  | none =>
    match alookup uuid st.keys with
    | none => ([], st, 0)
    | some e =>
      let key := dec e.1 (pass ())
      if key ≠ [] then (key, ⟨st.keys, (uuid, key) :: st.cache⟩, 1)
      else (key, st, 1)

/-- Translation of `SecretStore::importSecret`: cache the secret eagerly, insert
`(encrypt(s, pass), "")` into `m_keys`, then `save()`. -/
def SecretStore.importSecretOp (enc : List Nat → String → String)
    (path : String → String) (st : StoreState) (uuid : String)
    (s : List Nat) (pass : String) : StoreState :=
  SecretStore.saveOp path ⟨(uuid, enc s pass, "") :: st.keys, (uuid, s) :: st.cache⟩

/-- Translation of `SecretStore::kill`: erase from the cache; when present in `m_keys`,
remove the backing file (external) and erase the entry. -/
def SecretStore.killOp (st : StoreState) (uuid : String) : StoreState :=
  if (alookup uuid st.keys).isSome then
    ⟨aeraseAll uuid st.keys, aeraseAll uuid st.cache⟩
  else ⟨st.keys, aeraseAll uuid st.cache⟩

/-- Translation of `SecretStore::clearCache`: drop the whole cache, `m_keys` untouched. -/
def SecretStore.clearCacheOp (st : StoreState) : StoreState := ⟨st.keys, []⟩

/-- C8: `secret(uuid, provider)` returns the cached bytes without
invoking the provider on a cache hit; returns empty without invoking the
provider when the uuid is in neither map; and otherwise invokes the
provider exactly once, decrypts, caches the result exactly when the
decryption succeeded (non-empty), and returns it — so nothing enters the
cache that did not pass the MAC check inside `decrypt`. -/
theorem secret_spec (dec : String → String → List Nat) (st : StoreState)
    (uuid : String) (pass : Unit → String) :
    (∀ v, alookup uuid st.cache = some v →
      SecretStore.secretOp dec st uuid pass = (v, st, 0)) ∧
    (alookup uuid st.cache = none → alookup uuid st.keys = none →
      SecretStore.secretOp dec st uuid pass = ([], st, 0)) ∧
    (∀ e, alookup uuid st.cache = none → alookup uuid st.keys = some e →
      (dec e.1 (pass ()) ≠ [] →
        SecretStore.secretOp dec st uuid pass =
          (dec e.1 (pass ()), ⟨st.keys, (uuid, dec e.1 (pass ())) :: st.cache⟩, 1)) ∧
      (dec e.1 (pass ()) = [] →
        SecretStore.secretOp dec st uuid pass = ([], st, 1))) := by
  refine ⟨?_, ?_, ?_⟩
  · intro v hv
    unfold SecretStore.secretOp
    rw [hv]
  · intro hc hk
    unfold SecretStore.secretOp
    rw [hc, hk]
  · intro e hc hk
    constructor
    · intro hne
      unfold SecretStore.secretOp
      rw [hc, hk]
      simp only [if_pos hne]
    · intro heq
      unfold SecretStore.secretOp
      rw [hc, hk]
      simp only [heq]
      rw [if_neg (by simp)]

/-- Witness for `secret_spec`: a cache miss with a present key and a
successful decryption caches and returns the plaintext after one
provider call. -/
theorem secret_spec_witness :
    SecretStore.secretOp (fun _ _ => [1]) ⟨[("u", "e", "")], []⟩ "u"
        (fun _ => "p") =
      ([1], ⟨[("u", "e", "")], [("u", [1])]⟩, 1) :=
  ((secret_spec (fun _ _ => [1]) ⟨[("u", "e", "")], []⟩ "u"
      (fun _ => "p")).2.2 ("e", "") rfl rfl).1 (by decide)

/-- The store invariant of the specification's data model: every UUID
present in the cache is also present in `keys`. -/
def Inv (st : StoreState) : Prop :=
  ∀ u, (alookup u st.cache).isSome = true → (alookup u st.keys).isSome = true

theorem alookup_aeraseAll {α : Type} (u u' : String) (l : List (String × α)) :
    alookup u (aeraseAll u' l) = if u' = u then none else alookup u l := by
  induction l with
  | nil => by_cases h : u' = u <;> simp [aeraseAll, alookup, h]
  | cons hd t ih =>
    obtain ⟨k, v⟩ := hd
    by_cases hk : k = u' <;> by_cases hu : u' = u <;> by_cases hku : k = u <;>
      simp_all [aeraseAll, alookup]

theorem alookup_saveOp (path : String → String) (u : String)
    (l : List StoreEntry) :
    alookup u (l.map (fun e => (e.1, e.2.1, path e.1))) =
      (alookup u l).map (fun v => (v.1, path u)) := by
  induction l with
  | nil => rfl
  | cons hd t ih =>
    obtain ⟨k, v⟩ := hd
    by_cases hk : k = u <;> simp [alookup, hk, ih]

theorem alookup_loadStep_mono (u : String) (ks : List StoreEntry)
    (a : KeyFileObj × String) (h : (alookup u ks).isSome = true) :
    (alookup u (SecretStore.loadStep ks a)).isSome = true := by
  unfold SecretStore.loadStep
  by_cases hacc : loadAccepts a.1
  · rw [if_pos hacc]
    by_cases hid : a.1.id = u <;> simp [alookup, hid, h]
  · rw [if_neg hacc]
    exact h

theorem alookup_foldl_loadStep_mono (u : String)
    (entries : List (KeyFileObj × String)) :
    ∀ ks, (alookup u ks).isSome = true →
      (alookup u (entries.foldl SecretStore.loadStep ks)).isSome = true := by
  induction entries with
  | nil => intro ks h; exact h
  | cons a t ih =>
    intro ks h
    exact ih _ (alookup_loadStep_mono u ks a h)

theorem Inv_saveOp (path : String → String) (st : StoreState) (h : Inv st) :
    Inv (SecretStore.saveOp path st) := by
  intro u hc
  show (alookup u (st.keys.map (fun e => (e.1, e.2.1, path e.1)))).isSome = true
  rw [alookup_saveOp]
  rcases Option.isSome_iff_exists.mp (h u hc) with ⟨w, hw⟩
  rw [hw]
  rfl

/-- C9: the invariant `cache ⊆ keys` (by key) is preserved by every
store operation: `secret`, `importSecret`, `kill`, `clearCache`, `save`
and `load` each map a state satisfying it to a state satisfying it. -/
theorem store_cache_subset_keys (dec : String → String → List Nat)
    (enc : List Nat → String → String) (path : String → String)
    (st : StoreState) (uuid : String) (s : List Nat) (pass : String)
    (passF : Unit → String) (entries : List (KeyFileObj × String))
    (hinv : Inv st) :
    Inv (SecretStore.secretOp dec st uuid passF).2.1 ∧
    Inv (SecretStore.importSecretOp enc path st uuid s pass) ∧
    Inv (SecretStore.killOp st uuid) ∧
    Inv (SecretStore.clearCacheOp st) ∧
    Inv (SecretStore.saveOp path st) ∧
    Inv (SecretStore.loadOp entries st) := by
  refine ⟨?_, ?_, ?_, ?_, ?_, ?_⟩
  · rcases hc : alookup uuid st.cache with _ | v
    · rcases hk : alookup uuid st.keys with _ | e
      · simp only [SecretStore.secretOp, hc, hk]
        exact hinv
      · by_cases hne : dec e.1 (passF ()) ≠ []
        · simp only [SecretStore.secretOp, hc, hk, if_pos hne]
          intro u hu
          simp only [alookup] at hu
          by_cases huu : uuid = u
          · rw [← huu, hk]
            rfl
          · rw [if_neg huu] at hu
            exact hinv u hu
        · simp only [SecretStore.secretOp, hc, hk, if_neg hne]
          exact hinv
    · simp only [SecretStore.secretOp, hc]
      exact hinv
  · apply Inv_saveOp
    intro u hu
    simp only [alookup] at hu ⊢
    by_cases huu : uuid = u
    · rw [if_pos huu]
      rfl
    · rw [if_neg huu] at hu ⊢
      exact hinv u hu
  · unfold SecretStore.killOp
    by_cases hk : (alookup uuid st.keys).isSome = true
    · rw [if_pos hk]
      intro u hu
      simp only at hu ⊢
      rw [alookup_aeraseAll] at hu ⊢
      by_cases huu : uuid = u
      · rw [if_pos huu] at hu
        exact absurd hu (by simp)
      · rw [if_neg huu] at hu ⊢
        exact hinv u hu
    · rw [if_neg hk]
      intro u hu
      simp only at hu ⊢
      rw [alookup_aeraseAll] at hu
      by_cases huu : uuid = u
      · rw [if_pos huu] at hu
        exact absurd hu (by simp)
      · rw [if_neg huu] at hu
        exact hinv u hu
  · intro u hu
    exact absurd hu (by simp [SecretStore.clearCacheOp, alookup])
  · exact Inv_saveOp path st hinv
  · intro u hu
    unfold SecretStore.loadOp at hu ⊢
    simp only at hu ⊢
    exact alookup_foldl_loadStep_mono u entries st.keys (hinv u hu)

/-- Witness for `store_cache_subset_keys` at a one-key, empty-cache
store. -/
theorem store_cache_subset_keys_witness :
    Inv (SecretStore.secretOp (fun _ _ => [1]) ⟨[("u", "e", "")], []⟩ "u"
      (fun _ => "p")).2.1 ∧
    Inv (SecretStore.importSecretOp (fun _ _ => "j") (fun k => k)
      ⟨[("u", "e", "")], []⟩ "u" [2] "p") ∧
    Inv (SecretStore.killOp ⟨[("u", "e", "")], []⟩ "u") ∧
    Inv (SecretStore.clearCacheOp ⟨[("u", "e", "")], []⟩) ∧
    Inv (SecretStore.saveOp (fun k => k) ⟨[("u", "e", "")], []⟩) ∧
    Inv (SecretStore.loadOp [] ⟨[("u", "e", "")], []⟩) :=
  store_cache_subset_keys (fun _ _ => [1]) (fun _ _ => "j") (fun k => k)
    ⟨[("u", "e", "")], []⟩ "u" [2] "p" (fun _ => "p") []
    (fun _ hu => Bool.noConfusion hu)

end Devcrypto
